import Mathlib

/-!
Verification development for the concert-finder pipeline (src/main.py).

The Python program is shallowly embedded: pure helpers become Lean
functions over `List Char` / `String` / `ℚ`; the external libraries the
code calls (difflib's SequenceMatcher, the math library's float
transcendentals, datetime/pytz parsing, the HTTP layer and the Spotify
API) are abstracted as function parameters, so every theorem quantifies
over their behaviour.  Rational thresholds are written with `mkRat` so
that concrete runs reduce inside the kernel (`mkRat 8 10` is 0.8).
-/

/-- Model of a Python scalar value as it occurs in the scraped JSON:
`None`, a string, or a number (floats modelled as rationals). -/
inductive PyVal where
  | null : PyVal
  | str : String → PyVal
  | num : ℚ → PyVal
deriving DecidableEq, Repr

/-- Python truthiness for the values above: `None`, the empty string and
the number 0 are falsy (this is what `all([lat1, lon1, lat2, lon2])`
tests in `Utils.calculate_distance`). -/
def pyTruthy : PyVal → Bool
  | .null => false
  | .str s => !(s == "")
  | .num q => !(q == 0)

/-- Parses an optional sign followed by decimal digits. Helper for
`parseFloat`. -/
def parseDigits : List Char → Option ℕ
  | [] => Option.none
  | cs =>
    if cs.all Char.isDigit then
      some (cs.foldl (fun acc c => acc * 10 + (c.toNat - 48)) 0)
    else Option.none

/-- Modelled from the Python builtin `float(...)` on plain decimal string
literals: optional sign, an integer part and an optional fractional part;
anything else fails (raises `ValueError` in Python, `none` here). -/
def parseFloat (cs : List Char) : Option ℚ :=
  let (sgn, body) : ℚ × List Char :=
    match cs with
    | '-' :: rest => (-1, rest)
    | '+' :: rest => (1, rest)
    | rest => (1, rest)
  let intPart := body.takeWhile Char.isDigit
  let rest := body.drop intPart.length
  match rest with
  | [] =>
    match parseDigits intPart with
    | some n => some (sgn * n)
    | Option.none => Option.none
  | '.' :: fracChars =>
    if fracChars.all Char.isDigit ∧ (intPart ≠ [] ∨ fracChars ≠ []) then
      let ip : ℚ := intPart.foldl (fun acc c => acc * 10 + (c.toNat - 48)) 0
      let fp : ℚ := fracChars.foldl (fun acc c => acc * 10 + (c.toNat - 48)) 0
      some (sgn * (ip + fp / 10 ^ fracChars.length))
    else Option.none
  | _ => Option.none

/-- Python `float(x)` applied to one of our scalar values: numbers convert
to themselves, strings are parsed, `None` fails (TypeError). -/
def pyFloat : PyVal → Option ℚ
  | .null => Option.none
  | .num q => some q
  | .str s => parseFloat s.data

/-- Whitespace class of Python's `str.strip` and the regex `\s`. -/
def pySpace (c : Char) : Bool :=
  c == ' ' || c == '\t' || c == '\n' || c == '\r' || c == '\x0b' || c == '\x0c'

/-- Python `str.strip()` on a character list. -/
def pyStrip (cs : List Char) : List Char :=
  ((cs.dropWhile pySpace).reverse.dropWhile pySpace).reverse

/-- ASCII uppercase letter, the character class `[A-Z]` of the
region-tag regex. -/
def isUpperAZ (c : Char) : Bool := 'A' ≤ c && c ≤ 'Z'

/-- Looks for the trailing region tag `\s*\([A-Z]{2,3}\)\s*$` of
`Utils.clean_artist_name` / `Utils.has_region_identifier`.  On success it
returns the characters standing before the `\s*\(` of the match, in
original order. -/
def splitRegionTag (cs : List Char) : Option (List Char) :=
  match (cs.reverse.dropWhile pySpace) with
  | ')' :: rest =>
    let letters := rest.takeWhile isUpperAZ
    match rest.drop letters.length with
    | '(' :: before =>
      if 2 ≤ letters.length ∧ letters.length ≤ 3 then
        some ((before.dropWhile pySpace).reverse)
      else Option.none
    | _ => Option.none
  | _ => Option.none

/-- Embedding of `Utils.clean_artist_name`: strip the name, then delete a
trailing parenthesised 2-3 letter uppercase region tag if present. -/
def cleanArtistName (s : String) : String :=
  let stripped := pyStrip s.data
  match splitRegionTag stripped with
  | some before => String.mk before
  | Option.none => String.mk stripped

/-- Embedding of `Utils.has_region_identifier`: whether the raw name ends
with the region-tag pattern. -/
def hasRegionIdentifier (s : String) : Bool :=
  (splitRegionTag s.data).isSome

/-- Python `str.lower()` at the character-list level (ASCII case fold,
which is what the artist names involved exercise). -/
def lowerData (s : String) : List Char := s.data.map Char.toLower

/-- Case-insensitive equality, the `a.lower() == b.lower()` comparisons of
the matcher. -/
def lowerEq (a b : String) : Bool := lowerData a == lowerData b

/-- Modelled from Python's `round(x, 2)`: rounding a real to two decimal
places (the half-to-even tie rule of the float builtin is immaterial to
every property stated below). -/
noncomputable def pyRound2 (x : ℝ) : ℝ := (round (100 * x) : ℤ) / 100

/-- Degrees-to-radians conversion, `math.radians`. -/
noncomputable def radiansQ (q : ℚ) : ℝ := Real.pi * q / 180

/-- Unrounded core of `Utils.calculate_distance`: the haversine
great-circle distance in miles, written exactly as in the source
(`2 * 3956 * asin(sqrt(a))`). -/
noncomputable def haversineRaw (lat1 lon1 lat2 lon2 : ℚ) : ℝ :=
  2 * 3956 * Real.arcsin (Real.sqrt (
    Real.sin ((radiansQ lat2 - radiansQ lat1) / 2) ^ 2 +
    Real.cos (radiansQ lat1) * Real.cos (radiansQ lat2) *
      Real.sin ((radiansQ lon2 - radiansQ lon1) / 2) ^ 2))

/-- Haversine distance rounded to two decimals, the successful return
value of `Utils.calculate_distance`. -/
noncomputable def haversineMiles (lat1 lon1 lat2 lon2 : ℚ) : ℝ :=
  pyRound2 (haversineRaw lat1 lon1 lat2 lon2)

/-- Embedding of `Utils.calculate_distance`, generic in the numeric core
`hv` (the pipeline instantiates `hv` with an abstract rational-valued
core, the distance claims with `haversineMiles`).  `none` models the
`float('inf')` sentinel: it is returned when some argument is Python-falsy
or when some `float(...)` conversion raises. -/
def calculate_distance {α : Type} (hv : ℚ → ℚ → ℚ → ℚ → α)
    (lat1 lon1 lat2 lon2 : PyVal) : Option α :=
  if pyTruthy lat1 && pyTruthy lon1 && pyTruthy lat2 && pyTruthy lon2 then
    match pyFloat lat1, pyFloat lon1, pyFloat lat2, pyFloat lon2 with
    | some a, some b, some c, some d => some (hv a b c d)
    | _, _, _, _ => Option.none
  else Option.none

/-- Catalog artist candidate as consumed by `_find_best_match`: Spotify
id, display name and follower count. -/
structure Artist where
  id : String
  name : String
  followers : ℕ
deriving DecidableEq, Repr

/-- Python's `max(xs, key=k)` for a non-empty list: the first element
attaining the maximal key (`none` on the empty list, where Python would
raise).  `max` keeps the current best on ties, so the fold replaces it
only on a strictly larger key. -/
def pyMaxBy {α : Type} (key : α → ℚ) : List α → Option α
  | [] => Option.none
  | x :: xs => some (xs.foldl (fun b a => if key b < key a then a else b) x)

/-- Similarity floor of the tagged tier (`sim > 0.8` in
`_find_best_match`); `mkRat 8 10` is the rational 0.8. -/
def taggedFloor : ℚ := mkRat 8 10

/-- Similarity floor of the untagged tier (`sim > 0.6`). -/
def untaggedFloor : ℚ := mkRat 6 10

/-- Tier threshold selected by the region-tag flag. -/
def tierFloor (hasRegion : Bool) : ℚ :=
  if hasRegion then taggedFloor else untaggedFloor

/-- Exactness test of the per-candidate loop of `_find_best_match`: with
a region tag, cleaned names are compared case-insensitively against the
cleaned search name; without one, raw names against the original name. -/
def isExactCand (originalName searchName : String) (hasRegion : Bool)
    (a : Artist) : Bool :=
  if hasRegion then lowerEq (cleanArtistName a.name) searchName
  else lowerEq a.name originalName

/-- Similarity score computed for a non-exact candidate, with the same
pair of arguments as the source passes to `Utils.similarity_score`.
`sim` abstracts difflib's `SequenceMatcher.ratio` (which already
lower-cases its inputs). -/
def candScore (sim : String → String → ℚ) (originalName searchName : String)
    (hasRegion : Bool) (a : Artist) : ℚ :=
  if hasRegion then sim searchName (cleanArtistName a.name)
  else sim originalName a.name

/-- Exact-match set accumulated by the loop of `_find_best_match`. -/
def exactMatches (originalName searchName : String) (hasRegion : Bool)
    (artists : List Artist) : List Artist :=
  artists.filter (isExactCand originalName searchName hasRegion)

/-- Approximate-match set accumulated by the loop of `_find_best_match`:
non-exact candidates whose similarity score is strictly above the tier
threshold, paired with that score. -/
def approximateMatches (sim : String → String → ℚ)
    (originalName searchName : String) (hasRegion : Bool)
    (artists : List Artist) : List (Artist × ℚ) :=
  artists.filterMap (fun a =>
    if isExactCand originalName searchName hasRegion a then Option.none
    else
      let s := candScore sim originalName searchName hasRegion a
      if tierFloor hasRegion < s then some (a, s) else Option.none)

/-- Embedding of `SpotifyClient._find_best_match`: prefer the exact match
with the most followers (score fixed at 1.0), else the approximate match
with the highest score, else report no choice with score 0.0. -/
def findBestMatch (sim : String → String → ℚ)
    (artists : List Artist) (originalName searchName : String)
    (hasRegion : Bool) : Option Artist × Bool × ℚ :=
  match pyMaxBy (fun a => (a.followers : ℚ))
      (exactMatches originalName searchName hasRegion artists) with
  | some best => (some best, true, 1)
  | Option.none =>
    match pyMaxBy Prod.snd
        (approximateMatches sim originalName searchName hasRegion artists) with
    | some bestMatch => (some bestMatch.1, false, bestMatch.2)
    | Option.none => (Option.none, false, 0)

/-- Result dictionary of `SpotifyClient.search_artist`; optional fields
model keys that are present only on some branches.  `venue` and
`distance` are the two keys `main` attaches to every result before
playlist construction (`distance = none` models `float('inf')`). -/
structure SAResult where
  searched : String
  found : Option String := Option.none
  uri : Option String := Option.none
  exactMatch : Option Bool := Option.none
  similarity : Option ℚ := Option.none
  hadRegion : Option Bool := Option.none
  error : Option String := Option.none
  venue : Option String := Option.none
  distance : Option ℚ := Option.none
deriving DecidableEq, Repr

/-- External-world inputs of one artist lookup: the search API response
for a query (an exception, a payload without an `artists` key, or the
candidate items) and the track-resolution outcome per artist id
(`_get_artist_track` swallows its own failures and returns `None`, so an
`Option` of the track uri is its faithful interface).  `sim` abstracts
difflib as above. -/
structure SearchEnv where
  searchResp : String → Except String (Option (List Artist))
  trackFor : String → Option String
  sim : String → String → ℚ

/-- Embedding of `SpotifyClient.search_artist`: every failure mode is
converted into an error-tagged result; a found artist without a playable
track reports the artist name together with the error. -/
def search_artist (token : Option String) (env : SearchEnv)
    (artistName : String) : SAResult :=
  match token with
  | Option.none => { searched := artistName, error := some "No access token" }
  | some _ =>
    let searchName := cleanArtistName artistName
    let hasRegion := hasRegionIdentifier artistName
    match env.searchResp searchName with
    | .error e =>
      { searched := artistName, error := some ("Search error: " ++ e) }
    | .ok Option.none =>
      { searched := artistName, error := some "API Error" }
    | .ok (some artists) =>
      if artists.isEmpty then
        { searched := artistName, error := some "No artist found" }
      else
        match findBestMatch env.sim artists artistName searchName hasRegion with
        | (Option.none, _, _) =>
          { searched := artistName, error := some "No suitable artist found" }
        | (some chosen, exact, simScore) =>
          match env.trackFor chosen.id with
          | Option.none =>
            { searched := artistName, found := some chosen.name,
              error := some "No tracks found" }
          | some uri =>
            { searched := artistName, found := some chosen.name,
              uri := some uri, exactMatch := some exact,
              similarity := some simScore, hadRegion := some hasRegion }

/-- Raw event as delivered by one structured-data block, after the
source's shape coercions: the `performer` entry is already flattened to a
list of names (`performer.get('name','')` for dict entries, `str(...)`
otherwise), `location.name` defaults to the empty string and `geo` is
`none` when absent or falsy. -/
structure RawEvent where
  name : String
  startDate : String
  venueName : String
  geo : Option (PyVal × PyVal)
  performers : List String
deriving DecidableEq, Repr

/-- Performer record appended by `_scrape_page`, one per (event,
performer-name) pair; the fields are exactly the dict keys built by
`_extract_event_data` plus `performer_name`.  `distance_miles = none`
models `float('inf')`. -/
structure PerfRecord where
  performer_name : String
  venue : String
  event_name : String
  event_date : String
  event_start_time : String
  latitude : PyVal
  longitude : PyVal
  distance_miles : Option ℚ
deriving DecidableEq, Repr

/-- External dependencies of the scraping stage: the origin coordinates
(from `Config`), the numeric haversine core (the float math of
`calculate_distance`, rational-valued here so records stay decidable) and
the `fromisoformat`-plus-`strftime('%H:%M')` composite used by
`_extract_event_data` (`none` models a parse exception). -/
structure ScrapeCtx where
  originLat : PyVal
  originLon : PyVal
  hv : ℚ → ℚ → ℚ → ℚ → ℚ
  isoHHMM : String → Option String

/-- Python `str.replace('Z', '+00:00')` at the character level. -/
def replaceZData : List Char → List Char
  | [] => []
  | c :: cs =>
    if c = 'Z' then '+' :: '0' :: '0' :: ':' :: '0' :: '0' :: replaceZData cs
    else c :: replaceZData cs

/-- Start-time extraction of `_extract_event_data`: only a non-empty
`startDate` containing a `T` is parsed, and a parse failure leaves the
time empty. -/
def startTimeOf (C : ScrapeCtx) (e : RawEvent) : String :=
  if !(e.startDate == "") && e.startDate.data.contains 'T' then
    match C.isoHHMM (String.mk (replaceZData e.startDate.data)) with
    | some t => t
    | Option.none => ""
  else ""

/-- Coordinates extracted from `location`: both default to the empty
string when `geo` is absent or falsy. -/
def geoLatLon : Option (PyVal × PyVal) → PyVal × PyVal
  | some p => p
  | Option.none => (.str "", .str "")

/-- Embedding of `_extract_event_data` combined with the
`performer_name` key added per performer in `_scrape_page`. -/
def extractEventData (C : ScrapeCtx) (e : RawEvent) (pname : String) :
    PerfRecord :=
  let latlon := geoLatLon e.geo
  { performer_name := pname
    venue := e.venueName
    event_name := e.name
    event_date := e.startDate
    event_start_time := startTimeOf C e
    latitude := latlon.1
    longitude := latlon.2
    distance_miles :=
      calculate_distance C.hv C.originLat C.originLon latlon.1 latlon.2 }

/-- Config.FESTIVAL_PERFORMER_LIMIT. -/
def festivalPerformerLimit : ℕ := 6

/-- Per-event body of the `_scrape_page` loop, threading the accumulated
performer records, the event count and the festival count. -/
def scrapeEventsStep (C : ScrapeCtx) (acc : List PerfRecord × ℕ × ℕ)
    (e : RawEvent) : List PerfRecord × ℕ × ℕ :=
  if festivalPerformerLimit < e.performers.length then
    (acc.1, acc.2.1 + 1, acc.2.2 + 1)
  else
    (acc.1 ++ e.performers.map (extractEventData C e), acc.2.1 + 1, acc.2.2)

/-- Event loop of `_scrape_page` started from an arbitrary accumulator. -/
def scrapeEventsFrom (C : ScrapeCtx) (acc : List PerfRecord × ℕ × ℕ)
    (events : List RawEvent) : List PerfRecord × ℕ × ℕ :=
  events.foldl (scrapeEventsStep C) acc

/-- Performer records, event count and festival count produced from one
well-formed event list. -/
def scrapeEvents (C : ScrapeCtx) (events : List RawEvent) :
    List PerfRecord × ℕ × ℕ :=
  scrapeEventsFrom C ([], 0, 0) events

/-- Embedding of the per-page block loop of `_scrape_page`: each
structured-data block either fails `json.loads` (the `Except.error` case,
skipped by the bare `except: continue`) or yields a list of events that
is processed in place. -/
def scrapeBlocks (C : ScrapeCtx)
    (blocks : List (Except String (List RawEvent))) :
    List PerfRecord × ℕ × ℕ :=
  blocks.foldl
    (fun acc b =>
      match b with
      | .error _ => acc
      | .ok evs => scrapeEventsFrom C acc evs)
    ([], 0, 0)

/-- External datetime stack of `_has_show_started`, modelled as partial
parsers into an absolute timestamp (an integer count of minutes in the
configured timezone): `iso` is `datetime.fromisoformat` followed by the
pytz localize/astimezone normalization, `pdate` is
`strptime(_, '%Y-%m-%d')` giving the midnight timestamp of the date, and
`ptime` is `strptime(_, '%H:%M')` giving the minute-of-day offset, so the
`datetime.combine` of the source is `pdate + ptime`. -/
structure TimeParsers where
  iso : String → Option ℤ
  pdate : String → Option ℤ
  ptime : String → Option ℤ

/-- Python `s.split('T')[0]`. -/
def beforeT (s : String) : String := String.mk (s.data.takeWhile (· ≠ 'T'))

/-- Absolute event timestamp computed by `_has_show_started`: an ISO
date-time is parsed directly when it contains a `T` (falling back to the
date part combined with the start time), otherwise the date and the
start time are parsed separately; `none` models an exception reaching
the enclosing `except`. -/
def eventDatetime (P : TimeParsers) (r : PerfRecord) : Option ℤ :=
  if r.event_date.data.contains 'T' then
    match P.iso (String.mk (replaceZData r.event_date.data)) with
    | some t => some t
    | Option.none =>
      match P.pdate (beforeT r.event_date), P.ptime r.event_start_time with
      | some d, some t => some (d + t)
      | _, _ => Option.none
  else
    match P.pdate (beforeT r.event_date), P.ptime r.event_start_time with
    | some d, some t => some (d + t)
    | _, _ => Option.none

/-- Embedding of `ConcertScraper._has_show_started`: records without a
start time are never flagged, parse failures return `False` (the bare
`except` clause), and otherwise the event timestamp is compared strictly
against the current time. -/
def hasShowStarted (P : TimeParsers) (r : PerfRecord) (now : ℤ) : Bool :=
  if r.event_start_time == "" then false
  else
    match eventDatetime P r with
    | some t => t < now
    | Option.none => false

/-- Ascending-distance comparison used to model
`sort_values('distance_sort', na_position='last')`: `none` is the
infinite sentinel and sorts after every finite value. -/
def distLE : Option ℚ → Option ℚ → Bool
  | _, Option.none => true
  | Option.none, some _ => false
  | some p, some q => p ≤ q

/-- Sort relation on performer records given by `distLE` on their
distances. -/
def distRel (a b : PerfRecord) : Prop :=
  distLE a.distance_miles b.distance_miles = true

instance : DecidableRel distRel := fun a b => by unfold distRel; infer_instance

/-- Lexicographic comparison of character lists by code point, the string
order Python (and hence the pandas group-key sort) uses. -/
def lexLe : List Char → List Char → Bool
  | [], _ => true
  | _ :: _, [] => false
  | a :: as, b :: bs =>
    if a < b then true else if b < a then false else lexLe as bs

/-- Sort relation on strings used to model the sorted group keys of
`df.groupby('performer_name')`. -/
def nameRel (a b : String) : Prop := lexLe a.data b.data = true

instance : DecidableRel nameRel := fun a b => by unfold nameRel; infer_instance

/-- Distinct elements of a list in order of first appearance; together
with the name sort below this models the group keys of
`df.groupby('performer_name')`. -/
def uniqueKeysAux (seen : List String) : List String → List String
  | [] => []
  | x :: xs =>
    if x ∈ seen then uniqueKeysAux seen xs
    else x :: uniqueKeysAux (x :: seen) xs

/-- Distinct group keys of a record list. -/
def uniqueKeys (l : List String) : List String := uniqueKeysAux [] l

/-- Venue filter `df = df[df['venue'] != '']` of `_process_performers`. -/
def venueFiltered (l : List PerfRecord) : List PerfRecord :=
  l.filter (fun r => !(r.venue == ""))

/-- Show-time filter
`df = df[~df.apply(lambda row: self._has_show_started(row, current_time), axis=1)]`. -/
def timeFiltered (P : TimeParsers) (now : ℤ) (l : List PerfRecord) :
    List PerfRecord :=
  l.filter (fun r => !hasShowStarted P r now)

/-- Distance sort of `_process_performers` (a stable sort; the property
proved about the retained occurrence does not depend on stability, which
pandas' default quicksort would not give). -/
def sortedByDist (l : List PerfRecord) : List PerfRecord :=
  List.insertionSort distRel l

/-- Row of the deduplicated output frame: the columns surviving
`groupby('performer_name').agg({'venue': 'first', 'distance_miles': 'first'}).reset_index()`. -/
structure DedupRow where
  performer_name : String
  venue : String
  distance_miles : Option ℚ
deriving DecidableEq, Repr

/-- Sorted group keys of a record list (pandas `groupby` sorts its keys
ascending by default). -/
def sortedNames (l : List PerfRecord) : List String :=
  List.insertionSort nameRel (uniqueKeys (l.map (·.performer_name)))

/-- Grouped aggregation of `_process_performers`: for each group key in
sorted order, the `first` aggregator takes venue and distance from the
first row of the group in frame order (no column of the frame is ever
NaN, so `first` is literally the first row). -/
def dedupRows (l : List PerfRecord) : List DedupRow :=
  (sortedNames l).filterMap (fun n =>
    (l.find? (fun r => r.performer_name == n)).map
      (fun r => ⟨n, r.venue, r.distance_miles⟩))

/-- Distance sort followed by grouped aggregation, the deduplication
stage proper. -/
def dedupStage (l : List PerfRecord) : List DedupRow :=
  dedupRows (sortedByDist l)

/-- Embedding of `ConcertScraper._process_performers`: early-return on an
empty input, venue filter, show-time filter, distance sort, then grouped
aggregation. -/
def processPerformers (P : TimeParsers) (performers : List PerfRecord)
    (now : ℤ) : List DedupRow :=
  if performers.isEmpty then []
  else dedupStage (timeFiltered P now (venueFiltered performers))

/-- Rows of the CSV snapshot written by `_process_performers`: the frame
after the venue filter, the show-time filter and the distance sort. -/
def snapshotRows (P : TimeParsers) (performers : List PerfRecord)
    (now : ℤ) : List PerfRecord :=
  sortedByDist (timeFiltered P now (venueFiltered performers))

/-- Venue/distance attachment performed by `main` on each search result:
the first deduplicated record with the searched name supplies them, with
`'Unknown'` and `float('inf')` as defaults. -/
def attachVenueDist (performersData : List DedupRow) (r : SAResult) :
    SAResult :=
  match performersData.find? (fun p => p.performer_name == r.searched) with
  | some p => { r with venue := some p.venue, distance := p.distance_miles }
  | Option.none => { r with venue := some "Unknown", distance := Option.none }

/-- Artist-resolution loop of `main`: one `search_artist` call per
performer name, each result enriched with venue and distance. -/
def resolveArtists (token : Option String) (env : SearchEnv)
    (performersData : List DedupRow) (names : List String) : List SAResult :=
  names.map (fun n => attachVenueDist performersData (search_artist token env n))

/-- Config.SKIP_THRESHOLD; `mkRat 7 10` is the rational 0.70. -/
def skipFloor : ℚ := mkRat 7 10

/-- Counters kept by the playlist-construction loop of `create_playlist`. -/
structure PStats where
  exact : ℕ
  fuzzy : ℕ
  skipped : ℕ
deriving DecidableEq, Repr

/-- Sort relation on results given by `distLE` on their distances, the
`get_distance` key of `create_playlist` (`none` covers both a missing
key and a non-finite value, which the key maps to `float('inf')`). -/
def saDistRel (a b : SAResult) : Prop := distLE a.distance b.distance = true

instance : DecidableRel saDistRel := fun a b => by
  unfold saDistRel; infer_instance

/-- Distance-sorted results, `sorted(results, key=get_distance)` (Python's
`sorted` is stable, as is this model). -/
def playlistSorted (results : List SAResult) : List SAResult :=
  List.insertionSort saDistRel results

/-- Body of the uri-collection loop of `create_playlist`: error results
are passed over, results at or above the skip threshold contribute their
uri and an exact/fuzzy tick, the rest are counted as skipped. -/
def approvedStep (acc : List String × PStats) (r : SAResult) :
    List String × PStats :=
  if r.error.isSome then acc
  else if skipFloor ≤ r.similarity.getD 0 then
    (acc.1 ++ [r.uri.getD ""],
     if r.exactMatch.getD false then { acc.2 with exact := acc.2.exact + 1 }
     else { acc.2 with fuzzy := acc.2.fuzzy + 1 })
  else (acc.1, { acc.2 with skipped := acc.2.skipped + 1 })

/-- Approved track uris and category counts produced by
`create_playlist` from a result list. -/
def createPlaylistUris (results : List SAResult) : List String × PStats :=
  (playlistSorted results).foldl approvedStep ([], ⟨0, 0, 0⟩)

/-- Error tally of `main` (`errors = sum(1 for r in results if 'error' in r)`). -/
def errorCount (results : List SAResult) : ℕ :=
  (results.filter (fun r => r.error.isSome)).length

/-- Result that the playlist loop approves: no error key and similarity
at or above the skip threshold. -/
def approvedPred (r : SAResult) : Bool :=
  !r.error.isSome && decide (skipFloor ≤ r.similarity.getD 0)

/-- Result the playlist loop counts as skipped: no error key and
similarity strictly below the skip threshold. -/
def skippedPred (r : SAResult) : Bool :=
  !r.error.isSome && !decide (skipFloor ≤ r.similarity.getD 0)

/-- Event retained by the festival filter of `_scrape_page`. -/
def nonFestival (e : RawEvent) : Bool :=
  decide (e.performers.length ≤ festivalPerformerLimit)

/-! Concrete fixtures used to evaluate the embedding on closed inputs. -/

/-- Datetime stack on which every parse fails. -/
def fxPnone : TimeParsers :=
  ⟨fun _ => Option.none, fun _ => Option.none, fun _ => Option.none⟩

/-- Datetime stack whose ISO parser always yields the timestamp 5. -/
def fxPiso : TimeParsers :=
  ⟨fun _ => some 5, fun _ => Option.none, fun _ => Option.none⟩

/-- Scrape context with unit origin, a zero haversine core and a failing
time formatter. -/
def fxCtx : ScrapeCtx :=
  ⟨.num 1, .num 1, fun _ _ _ _ => 0, fun _ => Option.none⟩

/-- Search environment whose search request always raises. -/
def fxEnvErr : SearchEnv :=
  ⟨fun _ => Except.error "boom", fun _ => Option.none, fun _ _ => 0⟩

/-- Search environment returning one exactly-matching candidate that has
no playable track. -/
def fxEnvAbba : SearchEnv :=
  ⟨fun _ => Except.ok (some [⟨"id1", "Abba", 10⟩]),
   fun _ => Option.none, fun _ _ => 0⟩

/-- Performer record at distance 5 (performer "A"). -/
def fxRecA : PerfRecord :=
  ⟨"A", "V2", "evA", "", "", .str "", .str "", some 5⟩

/-- Performer record at distance 1 (performer "B"). -/
def fxRecB : PerfRecord :=
  ⟨"B", "V1", "evB", "", "", .str "", .str "", some 1⟩

/-- Performer record whose start time is known but whose date string is
unparseable. -/
def fxRecJunk : PerfRecord :=
  ⟨"Band", "Venue", "ev", "junk-date", "19:00", .str "", .str "",
    Option.none⟩

/-- Two occurrences of performer "B" at distances 3.2 and 1.1 (the spec's
deduplication example; `mkRat 32 10` is 3.2). -/
def fxDedupInput : List PerfRecord :=
  [⟨"B", "VFar", "e1", "", "", .str "", .str "", some (mkRat 32 10)⟩,
   ⟨"B", "VNear", "e2", "", "", .str "", .str "", some (mkRat 11 10)⟩]

/-- Error-free matched result with similarity 1 and a track uri. -/
def fxSAgood : SAResult :=
  { searched := "X", found := some "X", uri := some "uriX",
    exactMatch := some true, similarity := some 1, hadRegion := some false,
    venue := some "V", distance := some 1 }

/-- Error-free matched result with similarity 0.65 (`mkRat 65 100`),
below the skip threshold. -/
def fxSAlow : SAResult :=
  { searched := "Y", found := some "Yy", uri := some "uriY",
    exactMatch := some false, similarity := some (mkRat 65 100),
    hadRegion := some false, venue := some "W", distance := some 2 }

/-- Raw event with a single performer. -/
def fxEvSmall : RawEvent :=
  ⟨"small", "", "VS", Option.none, ["P1"]⟩

/-- Raw event with seven performers: a festival under the default
limit 6. -/
def fxEvFest : RawEvent :=
  ⟨"fest", "", "VF", Option.none, ["F1", "F2", "F3", "F4", "F5", "F6", "F7"]⟩

theorem distLE_refl (a : Option ℚ) : distLE a a = true := by
  cases a <;> simp [distLE]

theorem distLE_total (a b : Option ℚ) :
    distLE a b = true ∨ distLE b a = true := by
  cases a <;> cases b <;> simp [distLE]
  exact le_total _ _

theorem distLE_trans {a b c : Option ℚ} (hab : distLE a b = true)
    (hbc : distLE b c = true) : distLE a c = true := by
  cases a <;> cases b <;> cases c <;> simp_all [distLE]
  exact le_trans hab hbc

instance : IsTotal PerfRecord distRel :=
  ⟨fun a b => distLE_total a.distance_miles b.distance_miles⟩

instance : IsTrans PerfRecord distRel :=
  ⟨fun _ _ _ hab hbc => distLE_trans hab hbc⟩

instance : IsTotal SAResult saDistRel :=
  ⟨fun a b => distLE_total a.distance b.distance⟩

instance : IsTrans SAResult saDistRel :=
  ⟨fun _ _ _ hab hbc => distLE_trans hab hbc⟩

theorem lexLe_total (as : List Char) : ∀ bs,
    lexLe as bs = true ∨ lexLe bs as = true := by
  induction as with
  | nil => intro bs; left; rfl
  | cons a as ih =>
    intro bs
    cases bs with
    | nil => right; rfl
    | cons b bs =>
      rcases lt_trichotomy a b with h | h | h
      · left; simp [lexLe, h]
      · subst h
        simp only [lexLe, if_neg (lt_irrefl a)]
        exact ih bs
      · right; simp [lexLe, h]

theorem lexLe_trans : ∀ (as bs cs : List Char), lexLe as bs = true →
    lexLe bs cs = true → lexLe as cs = true := by
  intro as
  induction as with
  | nil => intro bs cs _ _; rfl
  | cons a as ih =>
    intro bs cs hab hbc
    cases bs with
    | nil => simp [lexLe] at hab
    | cons b bs =>
      cases cs with
      | nil => simp [lexLe] at hbc
      | cons c cs =>
        rcases lt_trichotomy a b with h1 | h1 | h1
        · rcases lt_trichotomy b c with h2 | h2 | h2
          · simp [lexLe, lt_trans h1 h2]
          · subst h2; simp [lexLe, h1]
          · simp [lexLe, h2, not_lt_of_lt h2] at hbc
        · subst h1
          rcases lt_trichotomy a c with h2 | h2 | h2
          · simp [lexLe, h2]
          · subst h2
            simp only [lexLe, if_neg (lt_irrefl a)] at hab hbc ⊢
            exact ih bs cs hab hbc
          · simp [lexLe, h2, not_lt_of_lt h2] at hbc
        · simp [lexLe, h1, not_lt_of_lt h1] at hab

instance : IsTotal String nameRel := ⟨fun a b => lexLe_total a.data b.data⟩

instance : IsTrans String nameRel :=
  ⟨fun a b c hab hbc => lexLe_trans a.data b.data c.data hab hbc⟩

theorem pyMaxBy_fold_spec {α : Type} (key : α → ℚ) (xs : List α) :
    ∀ b : α,
      (xs.foldl (fun b a => if key b < key a then a else b) b = b ∨
        xs.foldl (fun b a => if key b < key a then a else b) b ∈ xs) ∧
      key b ≤ key (xs.foldl (fun b a => if key b < key a then a else b) b) ∧
      ∀ x ∈ xs, key x ≤
        key (xs.foldl (fun b a => if key b < key a then a else b) b) := by
  induction xs with
  | nil => intro b; exact ⟨Or.inl rfl, le_refl _, by intro x hx; cases hx⟩
  | cons y ys ih =>
    intro b
    simp only [List.foldl_cons]
    by_cases h : key b < key y
    · rw [if_pos h]
      rcases ih y with ⟨hmem, hle, hall⟩
      refine ⟨?_, le_trans (le_of_lt h) hle, ?_⟩
      · rcases hmem with h' | h'
        · right; rw [h']; exact List.mem_cons_self _ _
        · right; exact List.mem_cons_of_mem _ h'
      · intro x hx
        rcases List.mem_cons.mp hx with rfl | hx'
        · exact hle
        · exact hall x hx'
    · rw [if_neg h]
      rcases ih b with ⟨hmem, hle, hall⟩
      refine ⟨?_, hle, ?_⟩
      · rcases hmem with h' | h'
        · left; exact h'
        · right; exact List.mem_cons_of_mem _ h'
      · intro x hx
        rcases List.mem_cons.mp hx with rfl | hx'
        · exact le_trans (le_of_not_lt h) hle
        · exact hall x hx'

theorem pyMaxBy_eq_none {α : Type} (key : α → ℚ) (l : List α) :
    pyMaxBy key l = Option.none ↔ l = [] := by
  cases l <;> simp [pyMaxBy]

theorem pyMaxBy_spec {α : Type} (key : α → ℚ) (l : List α) (m : α)
    (h : pyMaxBy key l = some m) : m ∈ l ∧ ∀ x ∈ l, key x ≤ key m := by
  cases l with
  | nil => simp [pyMaxBy] at h
  | cons x xs =>
    simp only [pyMaxBy, Option.some.injEq] at h
    subst h
    rcases pyMaxBy_fold_spec key xs x with ⟨hmem, hle, hall⟩
    constructor
    · rcases hmem with h' | h'
      · rw [h']; exact List.mem_cons_self _ _
      · exact List.mem_cons_of_mem _ h'
    · intro y hy
      rcases List.mem_cons.mp hy with rfl | hy'
      · exact hle
      · exact hall y hy'

theorem find?_pairwise {α : Type} {R : α → α → Prop}
    (hrefl : ∀ a, R a a) :
    ∀ (l : List α), l.Pairwise R → ∀ (p : α → Bool) (a : α),
      l.find? p = some a → ∀ b ∈ l, p b = true → R a b := by
  intro l
  induction l with
  | nil => intro _ p a h; simp at h
  | cons x xs ih =>
    intro hpw p a hfind b hb hpb
    rcases List.pairwise_cons.mp hpw with ⟨hx, hxs⟩
    by_cases hpx : p x = true
    · rw [List.find?_cons_of_pos _ hpx] at hfind
      injection hfind with h
      subst h
      rcases List.mem_cons.mp hb with rfl | hb'
      · exact hrefl _
      · exact hx b hb'
    · rw [List.find?_cons_of_neg _ hpx] at hfind
      rcases List.mem_cons.mp hb with rfl | hb'
      · exact absurd hpb hpx
      · exact ih hxs p a hfind b hb' hpb

theorem uniqueKeysAux_mem (x : String) :
    ∀ (l seen : List String),
      x ∈ uniqueKeysAux seen l ↔ x ∈ l ∧ x ∉ seen := by
  intro l
  induction l with
  | nil => intro seen; simp [uniqueKeysAux]
  | cons y ys ih =>
    intro seen
    by_cases h : y ∈ seen
    · rw [uniqueKeysAux, if_pos h, ih]
      constructor
      · rintro ⟨h1, h2⟩; exact ⟨List.mem_cons_of_mem _ h1, h2⟩
      · rintro ⟨h1, h2⟩
        rcases List.mem_cons.mp h1 with rfl | h1'
        · exact absurd h h2
        · exact ⟨h1', h2⟩
    · rw [uniqueKeysAux, if_neg h]
      constructor
      · intro hx
        rcases List.mem_cons.mp hx with rfl | hx'
        · exact ⟨List.mem_cons_self _ _, h⟩
        · rcases (ih (y :: seen)).mp hx' with ⟨h1, h2⟩
          refine ⟨List.mem_cons_of_mem _ h1, fun hc => h2 ?_⟩
          exact List.mem_cons_of_mem _ hc
      · rintro ⟨h1, h2⟩
        rcases List.mem_cons.mp h1 with rfl | h1'
        · exact List.mem_cons_self _ _
        · by_cases hxy : x = y
          · subst hxy; exact List.mem_cons_self _ _
          · refine List.mem_cons_of_mem _ ((ih (y :: seen)).mpr ⟨h1', ?_⟩)
            intro hc
            rcases List.mem_cons.mp hc with h' | h'
            · exact hxy h'
            · exact h2 h'

theorem uniqueKeysAux_nodup :
    ∀ (l seen : List String), (uniqueKeysAux seen l).Nodup := by
  intro l
  induction l with
  | nil => intro seen; simp [uniqueKeysAux]
  | cons y ys ih =>
    intro seen
    by_cases h : y ∈ seen
    · rw [uniqueKeysAux, if_pos h]; exact ih seen
    · rw [uniqueKeysAux, if_neg h]
      refine List.nodup_cons.mpr ⟨?_, ih (y :: seen)⟩
      intro hc
      rcases (uniqueKeysAux_mem y ys (y :: seen)).mp hc with ⟨_, h2⟩
      exact h2 (List.mem_cons_self _ _)

theorem uniqueKeys_mem (x : String) (l : List String) :
    x ∈ uniqueKeys l ↔ x ∈ l := by
  rw [uniqueKeys, uniqueKeysAux_mem]
  simp

theorem uniqueKeys_nodup (l : List String) : (uniqueKeys l).Nodup :=
  uniqueKeysAux_nodup l []

theorem scrapeEventsFrom_eq (C : ScrapeCtx) : ∀ (evs : List RawEvent)
    (ps : List PerfRecord) (ec fc : ℕ),
    scrapeEventsFrom C (ps, ec, fc) evs =
      (ps ++ (scrapeEvents C evs).1, ec + (scrapeEvents C evs).2.1,
        fc + (scrapeEvents C evs).2.2) := by
  intro evs
  induction evs with
  | nil => intro ps ec fc; simp [scrapeEventsFrom, scrapeEvents]
  | cons e evs ih =>
    intro ps ec fc
    by_cases h : festivalPerformerLimit < e.performers.length
    · have h1 : scrapeEventsFrom C (ps, ec, fc) (e :: evs) =
          scrapeEventsFrom C (ps, ec + 1, fc + 1) evs := by
        simp [scrapeEventsFrom, scrapeEventsStep, h]
      have h2 : scrapeEvents C (e :: evs) =
          scrapeEventsFrom C ([], 0 + 1, 0 + 1) evs := by
        simp [scrapeEvents, scrapeEventsFrom, scrapeEventsStep, h]
      rw [h1, ih, h2, ih]
      simp only [Prod.mk.injEq, List.nil_append]
      refine ⟨trivial, by omega, by omega⟩
    · have h1 : scrapeEventsFrom C (ps, ec, fc) (e :: evs) =
          scrapeEventsFrom C (ps ++ e.performers.map (extractEventData C e),
            ec + 1, fc) evs := by
        simp [scrapeEventsFrom, scrapeEventsStep, h]
      have h2 : scrapeEvents C (e :: evs) =
          scrapeEventsFrom C ([] ++ e.performers.map (extractEventData C e),
            0 + 1, 0) evs := by
        simp [scrapeEvents, scrapeEventsFrom, scrapeEventsStep, h]
      rw [h1, ih, h2, ih]
      simp only [Prod.mk.injEq, List.nil_append, List.append_assoc]
      refine ⟨trivial, by omega, by omega⟩

theorem scrapeEvents_spec (C : ScrapeCtx) : ∀ evs : List RawEvent,
    scrapeEvents C evs =
      ((evs.filter nonFestival).flatMap
        (fun ev => ev.performers.map (extractEventData C ev)),
       evs.length,
       (evs.filter (fun ev => !nonFestival ev)).length) := by
  intro evs
  induction evs with
  | nil => rfl
  | cons e evs ih =>
    by_cases h : festivalPerformerLimit < e.performers.length
    · have hnf : nonFestival e = false := by
        simp only [nonFestival, decide_eq_false_iff_not]; omega
      have h2 : scrapeEvents C (e :: evs) =
          scrapeEventsFrom C ([], 0 + 1, 0 + 1) evs := by
        simp [scrapeEvents, scrapeEventsFrom, scrapeEventsStep, h]
      rw [h2, scrapeEventsFrom_eq, ih]
      simp only [Prod.mk.injEq, List.nil_append, List.filter_cons, hnf,
        Bool.not_false, if_neg, List.length_cons]
      refine ⟨by simp, by simp [List.length_cons]; omega, by simp; omega⟩
    · have hnf : nonFestival e = true := by
        simp only [nonFestival, decide_eq_true_eq]; omega
      have h2 : scrapeEvents C (e :: evs) =
          scrapeEventsFrom C ([] ++ e.performers.map (extractEventData C e),
            0 + 1, 0) evs := by
        simp [scrapeEvents, scrapeEventsFrom, scrapeEventsStep, h]
      rw [h2, scrapeEventsFrom_eq, ih]
      simp only [Prod.mk.injEq, List.nil_append, List.filter_cons, hnf,
        Bool.not_true, List.length_cons]
      refine ⟨by simp, by simp [List.length_cons]; omega, by simp⟩

theorem scrapeBlocks_skip_error (C : ScrapeCtx) (msg : String)
    (bs1 bs2 : List (Except String (List RawEvent))) :
    scrapeBlocks C (bs1 ++ Except.error msg :: bs2) =
      scrapeBlocks C (bs1 ++ bs2) := by
  simp [scrapeBlocks, List.foldl_append]

theorem filter_split_length {α : Type} (p q : α → Bool) (l : List α) :
    (l.filter (fun a => p a && q a)).length +
      (l.filter (fun a => p a && !q a)).length = (l.filter p).length := by
  induction l with
  | nil => rfl
  | cons x xs ih =>
    by_cases hp : p x = true
    · by_cases hq : q x = true <;>
        simp [List.filter_cons, hp, hq, ih] <;> omega
    · simp only [Bool.not_eq_true] at hp
      simp [List.filter_cons, hp, ih]

theorem attachVenueDist_error (pd : List DedupRow) (r : SAResult) :
    (attachVenueDist pd r).error = r.error := by
  unfold attachVenueDist
  cases pd.find? (fun p => p.performer_name == r.searched) <;> rfl

theorem attachVenueDist_searched (pd : List DedupRow) (r : SAResult) :
    (attachVenueDist pd r).searched = r.searched := by
  unfold attachVenueDist
  cases pd.find? (fun p => p.performer_name == r.searched) <;> rfl


theorem approvedFold (l : List SAResult) : ∀ (us : List String) (st : PStats),
    l.foldl approvedStep (us, st) =
      (us ++ (l.filter approvedPred).map (fun r => r.uri.getD ""),
       ⟨st.exact +
          (l.filter (fun r => approvedPred r && r.exactMatch.getD false)).length,
        st.fuzzy +
          (l.filter (fun r => approvedPred r && !r.exactMatch.getD false)).length,
        st.skipped + (l.filter skippedPred).length⟩) := by
  induction l with
  | nil => intro us st; simp
  | cons r l ih =>
    intro us st
    simp only [List.foldl_cons]
    by_cases he : r.error.isSome = true
    · have hap : approvedPred r = false := by simp [approvedPred, he]
      have hsk : skippedPred r = false := by simp [skippedPred, he]
      have hstep : approvedStep (us, st) r = (us, st) := by
        simp [approvedStep, he]
      rw [hstep, ih]
      simp [List.filter_cons, hap, hsk]
    · have he' : r.error.isSome = false := by
        simpa using he
      by_cases hs : skipFloor ≤ r.similarity.getD 0
      · have hap : approvedPred r = true := by simp [approvedPred, he', hs]
        have hsk : skippedPred r = false := by simp [skippedPred, he', hs]
        by_cases hx : r.exactMatch.getD false = true
        · have hstep : approvedStep (us, st) r =
              (us ++ [r.uri.getD ""], { st with exact := st.exact + 1 }) := by
            simp [approvedStep, he', hs, hx]
          rw [hstep, ih]
          simp [List.filter_cons, hap, hsk, hx]
          omega
        · have hx' : r.exactMatch.getD false = false := by simpa using hx
          have hstep : approvedStep (us, st) r =
              (us ++ [r.uri.getD ""], { st with fuzzy := st.fuzzy + 1 }) := by
            simp [approvedStep, he', hs, hx']
          rw [hstep, ih]
          simp [List.filter_cons, hap, hsk, hx']
          omega
      · have hap : approvedPred r = false := by simp [approvedPred, hs]
        have hsk : skippedPred r = true := by simp [skippedPred, he', hs]
        have hstep : approvedStep (us, st) r =
            (us, { st with skipped := st.skipped + 1 }) := by
          simp [approvedStep, he', hs]
        rw [hstep, ih]
        simp [List.filter_cons, hap, hsk]
        omega

theorem search_artist_cases (token : Option String) (env : SearchEnv)
    (name : String) :
    (∃ msg, search_artist token env name =
      { searched := name, error := some msg }) ∨
    (∃ cn, search_artist token env name =
      { searched := name, found := some cn,
        error := some "No tracks found" }) ∨
    (∃ cn uri ex sc hr, search_artist token env name =
      { searched := name, found := some cn, uri := some uri,
        exactMatch := some ex, similarity := some sc,
        hadRegion := some hr }) := by
  rcases token with _ | t
  · exact Or.inl ⟨"No access token", rfl⟩
  · rcases h : env.searchResp (cleanArtistName name) with e | o
    · exact Or.inl ⟨"Search error: " ++ e, by simp [search_artist, h]⟩
    · rcases o with _ | artists
      · exact Or.inl ⟨"API Error", by simp [search_artist, h]⟩
      · by_cases hi : artists.isEmpty = true
        · exact Or.inl ⟨"No artist found", by simp [search_artist, h, hi]⟩
        · rcases hb : findBestMatch env.sim artists name (cleanArtistName name)
              (hasRegionIdentifier name) with ⟨choice, ex, sc⟩
          rcases choice with _ | chosen
          · exact Or.inl ⟨"No suitable artist found",
              by simp [search_artist, h, hi, hb]⟩
          · rcases ht : env.trackFor chosen.id with _ | uri
            · exact Or.inr (Or.inl ⟨chosen.name,
                by simp [search_artist, h, hi, hb, ht]⟩)
            · exact Or.inr (Or.inr ⟨chosen.name, uri, ex, sc,
                hasRegionIdentifier name,
                by simp [search_artist, h, hi, hb, ht]⟩)

theorem sortedByDist_perm (l : List PerfRecord) : (sortedByDist l).Perm l :=
  List.perm_insertionSort _ _

theorem sortedByDist_pairwise (l : List PerfRecord) :
    (sortedByDist l).Pairwise distRel :=
  List.sorted_insertionSort _ _

theorem dedupRows_mem_occ (l : List PerfRecord) (row : DedupRow)
    (hrow : row ∈ dedupRows l) :
    ∃ occ ∈ l, occ.performer_name = row.performer_name ∧
      row.venue = occ.venue ∧ row.distance_miles = occ.distance_miles ∧
      l.find? (fun r => r.performer_name == row.performer_name) = some occ := by
  rcases List.mem_filterMap.mp hrow with ⟨n, hn, hfn⟩
  rcases Option.map_eq_some'.mp hfn with ⟨occ, hfind, hocc⟩
  subst hocc
  refine ⟨occ, List.mem_of_find?_eq_some hfind, ?_, rfl, rfl, hfind⟩
  simpa using List.find?_some hfind

theorem dedupRows_min (l : List PerfRecord) (hl : l.Pairwise distRel)
    (row : DedupRow) (hrow : row ∈ dedupRows l) :
    ∃ occ ∈ l, occ.performer_name = row.performer_name ∧
      row.venue = occ.venue ∧ row.distance_miles = occ.distance_miles ∧
      ∀ o ∈ l, o.performer_name = row.performer_name →
        distLE occ.distance_miles o.distance_miles = true := by
  rcases dedupRows_mem_occ l row hrow with ⟨occ, hmem, hname, hv, hd, hfind⟩
  refine ⟨occ, hmem, hname, hv, hd, ?_⟩
  intro o ho honame
  exact find?_pairwise (R := distRel) (fun a => distLE_refl _) l hl _ occ
    hfind o ho (by simp [honame])

theorem sortedNames_mem (l : List PerfRecord) (n : String) :
    n ∈ sortedNames l ↔ ∃ o ∈ l, o.performer_name = n := by
  unfold sortedNames
  rw [(List.perm_insertionSort nameRel _).mem_iff, uniqueKeys_mem]
  simp

theorem sortedNames_nodup (l : List PerfRecord) : (sortedNames l).Nodup :=
  (List.perm_insertionSort nameRel _).symm.nodup (uniqueKeys_nodup _)

theorem sortedNames_sorted (l : List PerfRecord) :
    (sortedNames l).Pairwise nameRel :=
  List.sorted_insertionSort _ _

theorem map_name_filterMap (l : List PerfRecord) : ∀ ns : List String,
    (∀ n ∈ ns, (l.find? (fun r => r.performer_name == n)).isSome = true) →
    ((ns.filterMap (fun n => (l.find? (fun r => r.performer_name == n)).map
        (fun r => (⟨n, r.venue, r.distance_miles⟩ : DedupRow)))).map
      (fun row => row.performer_name)) = ns := by
  intro ns
  induction ns with
  | nil => intro _; rfl
  | cons n ns ih =>
    intro hall
    have h1 := hall n (List.mem_cons_self _ _)
    rcases Option.isSome_iff_exists.mp h1 with ⟨r, hr⟩
    have hrest := ih (fun m hm => hall m (List.mem_cons_of_mem _ hm))
    simp [List.filterMap_cons, hr, hrest]

theorem dedupRows_names (l : List PerfRecord) :
    (dedupRows l).map (fun row => row.performer_name) = sortedNames l := by
  unfold dedupRows
  apply map_name_filterMap
  intro n hn
  rcases (sortedNames_mem l n).mp hn with ⟨o, ho, honame⟩
  exact List.find?_isSome.mpr ⟨o, ho, by simp [honame]⟩

theorem dedupRows_names_iff (l : List PerfRecord) (n : String) :
    (∃ row ∈ dedupRows l, row.performer_name = n) ↔
      ∃ o ∈ l, o.performer_name = n := by
  rw [← sortedNames_mem l n, ← dedupRows_names l]
  simp [List.mem_map]

theorem exactMatches_mem (orig search : String) (hr : Bool)
    (artists : List Artist) (a : Artist) :
    a ∈ exactMatches orig search hr artists ↔
      a ∈ artists ∧ isExactCand orig search hr a = true := by
  unfold exactMatches
  exact List.mem_filter

theorem approximateMatches_mem (sim : String → String → ℚ)
    (orig search : String) (hr : Bool) (artists : List Artist)
    (p : Artist × ℚ) :
    p ∈ approximateMatches sim orig search hr artists ↔
      p.1 ∈ artists ∧ isExactCand orig search hr p.1 = false ∧
      tierFloor hr < candScore sim orig search hr p.1 ∧
      p.2 = candScore sim orig search hr p.1 := by
  obtain ⟨a, s⟩ := p
  unfold approximateMatches
  rw [List.mem_filterMap]
  constructor
  · rintro ⟨b, hb, hfb⟩
    by_cases hex : isExactCand orig search hr b = true
    · simp [hex] at hfb
    · have hex' : isExactCand orig search hr b = false := by simpa using hex
      rw [if_neg (by simp [hex'])] at hfb
      by_cases hth : tierFloor hr < candScore sim orig search hr b
      · rw [if_pos hth] at hfb
        injection hfb with h
        injection h with h1 h2
        subst h1; subst h2
        exact ⟨hb, hex', hth, rfl⟩
      · rw [if_neg hth] at hfb
        exact absurd hfb (by simp)
  · rintro ⟨h1, h2, h3, h4⟩
    refine ⟨a, h1, ?_⟩
    rw [if_neg (by simp [h2] : ¬isExactCand orig search hr a = true),
      if_pos h3]
    simp only [Option.some.injEq, Prod.mk.injEq]
    exact ⟨trivial, h4.symm⟩

/-- C1: the two-tier matching of `_find_best_match` admits a candidate to
the approximate set exactly when it is not an exact match and its
similarity is strictly above the tier threshold (0.8 for tagged names on
cleaned names, 0.6 for untagged names on raw names, so a score equal to
the threshold is excluded); a non-empty exact set yields the exact match
with the most followers at score fixed 1.0, beating every approximate
candidate whatever its similarity; with no exact match the
highest-scoring approximate candidate is chosen; with both sets empty no
artist is chosen and the performer is unresolved (score 0.0). -/
theorem C1_two_tier_matching (sim : String → String → ℚ)
    (artists : List Artist) (orig search : String) (hr : Bool) :
    (∀ p ∈ approximateMatches sim orig search hr artists,
      isExactCand orig search hr p.1 = false ∧ tierFloor hr < p.2 ∧
      p.2 = candScore sim orig search hr p.1 ∧ p.1 ∈ artists) ∧
    (∀ a ∈ artists, isExactCand orig search hr a = false →
      tierFloor hr < candScore sim orig search hr a →
      (a, candScore sim orig search hr a) ∈
        approximateMatches sim orig search hr artists) ∧
    (exactMatches orig search hr artists ≠ [] →
      ∃ best ∈ exactMatches orig search hr artists,
        findBestMatch sim artists orig search hr = (some best, true, 1) ∧
        ∀ b ∈ exactMatches orig search hr artists,
          b.followers ≤ best.followers) ∧
    (exactMatches orig search hr artists = [] →
      approximateMatches sim orig search hr artists ≠ [] →
      ∃ p ∈ approximateMatches sim orig search hr artists,
        findBestMatch sim artists orig search hr = (some p.1, false, p.2) ∧
        ∀ q ∈ approximateMatches sim orig search hr artists, q.2 ≤ p.2) ∧
    (exactMatches orig search hr artists = [] →
      approximateMatches sim orig search hr artists = [] →
      findBestMatch sim artists orig search hr = (Option.none, false, 0)) := by
  refine ⟨?_, ?_, ?_, ?_, ?_⟩
  · intro p hp
    rcases (approximateMatches_mem sim orig search hr artists p).mp hp with
      ⟨h1, h2, h3, h4⟩
    exact ⟨h2, by rw [h4]; exact h3, h4, h1⟩
  · intro a ha hex hth
    exact (approximateMatches_mem sim orig search hr artists
      (a, candScore sim orig search hr a)).mpr ⟨ha, hex, hth, rfl⟩
  · intro hne
    rcases hmax : pyMaxBy (fun a => (a.followers : ℚ))
        (exactMatches orig search hr artists) with _ | best
    · exact absurd ((pyMaxBy_eq_none _ _).mp hmax) hne
    · rcases pyMaxBy_spec _ _ _ hmax with ⟨hmem, hall⟩
      refine ⟨best, hmem, ?_, ?_⟩
      · unfold findBestMatch
        rw [hmax]
      · intro b hb
        exact_mod_cast hall b hb
  · intro hex hne
    have hmax1 : pyMaxBy (fun a => (a.followers : ℚ))
        (exactMatches orig search hr artists) = Option.none := by
      rw [hex]; rfl
    rcases hmax : pyMaxBy Prod.snd
        (approximateMatches sim orig search hr artists) with _ | p
    · exact absurd ((pyMaxBy_eq_none _ _).mp hmax) hne
    · rcases pyMaxBy_spec _ _ _ hmax with ⟨hmem, hall⟩
      refine ⟨p, hmem, ?_, hall⟩
      unfold findBestMatch
      rw [hmax1, hmax]
  · intro hex hap
    unfold findBestMatch
    rw [hex, hap]
    rfl

/-- Witness for C1 at a concrete input: with one dissimilar candidate
both sets are empty and no artist is chosen. -/
theorem C1_two_tier_matching_witness :
    exactMatches "Qq" "Qq" false [⟨"id1", "Zzz", 0⟩] = [] ∧
    approximateMatches (fun _ _ => 0) "Qq" "Qq" false [⟨"id1", "Zzz", 0⟩] =
      [] ∧
    findBestMatch (fun _ _ => 0) [⟨"id1", "Zzz", 0⟩] "Qq" "Qq" false =
      (Option.none, false, 0) :=
  ⟨by decide, by decide,
    (C1_two_tier_matching (fun _ _ => 0) [⟨"id1", "Zzz", 0⟩] "Qq" "Qq"
      false).2.2.2.2 (by decide) (by decide)⟩

/-- C2 counterexample: `fxRecJunk` has a known start time and a date
string no parser accepts, yet `_has_show_started` returns `False` (the
bare `except` swallows the failure) and the record survives
`_process_performers` — the record is kept, not dropped, so the
fails-closed clause of the claim is false on the code. -/
theorem C2_counterexample :
    fxRecJunk.event_start_time ≠ "" ∧
    eventDatetime fxPnone fxRecJunk = Option.none ∧
    hasShowStarted fxPnone fxRecJunk 0 = false ∧
    processPerformers fxPnone [fxRecJunk] 0 =
      [⟨"Band", "Venue", Option.none⟩] :=
  ⟨by decide, by decide, by decide, by decide⟩

/-- C2 (amended): a record is flagged as started exactly when it has a
start time and its parsed absolute timestamp is strictly before the
current time; the filter drops exactly the flagged records; a record with
no start time is never dropped, and a record whose date cannot be parsed
is also kept — the parse failure is swallowed (fails open, not closed). -/
theorem C2_show_time_filter (P : TimeParsers) (r : PerfRecord) (now : ℤ)
    (l : List PerfRecord) :
    (hasShowStarted P r now = true ↔
      r.event_start_time ≠ "" ∧
        ∃ t, eventDatetime P r = some t ∧ t < now) ∧
    (r ∈ timeFiltered P now l ↔ r ∈ l ∧ hasShowStarted P r now = false) ∧
    (eventDatetime P r = Option.none → hasShowStarted P r now = false) := by
  refine ⟨⟨?_, ?_⟩, ?_, ?_⟩
  · intro hss
    unfold hasShowStarted at hss
    by_cases h : r.event_start_time == ""
    · rw [if_pos h] at hss
      exact absurd hss (by simp)
    · rw [if_neg h] at hss
      rcases hd : eventDatetime P r with _ | t
      · rw [hd] at hss
        exact absurd hss (by simp)
      · rw [hd] at hss
        exact ⟨by simpa using h, t, rfl, by simpa using hss⟩
  · rintro ⟨h1, t, h2, h3⟩
    unfold hasShowStarted
    rw [if_neg (by simpa using h1), h2]
    simpa using h3
  · simp [timeFiltered, List.mem_filter]
  · intro hd
    unfold hasShowStarted
    by_cases h : r.event_start_time == ""
    · rw [if_pos h]
    · rw [if_neg h, hd]

/-- Witness for C2 at concrete inputs: with an ISO parser yielding
timestamp 5 and current time 10 the record is flagged as started, and the
junk-date record is kept by the filter. -/
theorem C2_show_time_filter_witness :
    hasShowStarted fxPiso
      ⟨"Band", "Venue", "ev", "2024-01-01T19:00:00", "19:00", .str "",
        .str "", Option.none⟩ 10 = true ∧
    fxRecJunk ∈ timeFiltered fxPnone 0 [fxRecJunk] :=
  ⟨(C2_show_time_filter fxPiso
      ⟨"Band", "Venue", "ev", "2024-01-01T19:00:00", "19:00", .str "",
        .str "", Option.none⟩ 10 []).1.mpr
      ⟨by decide, 5, by decide, by decide⟩,
    (C2_show_time_filter fxPnone fxRecJunk 0 [fxRecJunk]).2.1.mpr
      ⟨by decide, by decide⟩⟩

/-- C3: deduplication groups records by exact performer name; each
retained row carries the venue and distance of an occurrence of its name
whose distance is smallest in the group (`distLE` puts the
unknown/infinite sentinel after every finite distance, and an all-unknown
group still retains one of its occurrences); exactly the input names
survive, each exactly once. -/
theorem C3_dedup_smallest_distance (l : List PerfRecord) :
    (∀ row ∈ dedupStage l, ∃ occ ∈ l,
      occ.performer_name = row.performer_name ∧ row.venue = occ.venue ∧
      row.distance_miles = occ.distance_miles ∧
      ∀ o ∈ l, o.performer_name = row.performer_name →
        distLE occ.distance_miles o.distance_miles = true) ∧
    (∀ n : String, (∃ row ∈ dedupStage l, row.performer_name = n) ↔
      ∃ o ∈ l, o.performer_name = n) ∧
    ((dedupStage l).map (fun row => row.performer_name)).Nodup := by
  refine ⟨?_, ?_, ?_⟩
  · intro row hrow
    rcases dedupRows_min (sortedByDist l) (sortedByDist_pairwise l) row hrow
      with ⟨occ, hmem, hname, hv, hd, hmin⟩
    refine ⟨occ, (sortedByDist_perm l).mem_iff.mp hmem, hname, hv, hd, ?_⟩
    intro o ho honame
    exact hmin o ((sortedByDist_perm l).mem_iff.mpr ho) honame
  · intro n
    unfold dedupStage
    rw [dedupRows_names_iff]
    constructor
    · rintro ⟨o, ho, h⟩
      exact ⟨o, (sortedByDist_perm l).mem_iff.mp ho, h⟩
    · rintro ⟨o, ho, h⟩
      exact ⟨o, (sortedByDist_perm l).mem_iff.mpr ho, h⟩
  · unfold dedupStage
    rw [dedupRows_names]
    exact sortedNames_nodup _

/-- Witness for C3 at the spec's example: of two occurrences of "B" at
distances 3.2 and 1.1, the 1.1-distance venue is retained. -/
theorem C3_dedup_smallest_distance_witness :
    (⟨"B", "VNear", some (mkRat 11 10)⟩ : DedupRow) ∈
      dedupStage fxDedupInput ∧
    ∃ occ ∈ fxDedupInput, occ.performer_name = "B" ∧ "VNear" = occ.venue ∧
      some (mkRat 11 10) = occ.distance_miles ∧
      ∀ o ∈ fxDedupInput, o.performer_name = "B" →
        distLE occ.distance_miles o.distance_miles = true :=
  ⟨by decide, (C3_dedup_smallest_distance fxDedupInput).1
    ⟨"B", "VNear", some (mkRat 11 10)⟩ (by decide)⟩

/-- C4 counterexample: for records at distances 1 (performer "B") and 5
(performer "A") the deduplicated output lists "A" at distance 5 before
"B" at distance 1 — the stage output is ordered alphabetically by name by
the grouping, not by ascending distance as claimed. -/
theorem C4_counterexample :
    processPerformers fxPnone [fxRecB, fxRecA] 0 =
      [⟨"A", "V2", some 5⟩, ⟨"B", "V1", some 1⟩] ∧
    distLE (some (5 : ℚ)) (some 1) = false :=
  ⟨by decide, by decide⟩

/-- C4 (amended): the deduplicated list returned by the processing stage
(also the catalog lookup order) is ordered by ascending performer name —
the sorted group keys of the aggregation — while the distance sort before
grouping only selects which occurrence each name retains; the
playlist-facing ranking does re-sort results by ascending distance
(unknown last) before building the playlist. -/
theorem C4_output_order (P : TimeParsers) (performers : List PerfRecord)
    (now : ℤ) (results : List SAResult) :
    ((processPerformers P performers now).map
      (fun row => row.performer_name)).Pairwise nameRel ∧
    (playlistSorted results).Perm results ∧
    (playlistSorted results).Pairwise saDistRel := by
  refine ⟨?_, List.perm_insertionSort _ _, List.sorted_insertionSort _ _⟩
  unfold processPerformers
  by_cases h : performers.isEmpty
  · rw [if_pos h]; simp
  · rw [if_neg h]
    unfold dedupStage
    rw [dedupRows_names]
    exact sortedNames_sorted _

/-- C5: `_scrape_page` counts every event, classifies those with strictly
more than `FESTIVAL_PERFORMER_LIMIT = 6` performers as festivals and
excludes them entirely — the record list is exactly one record per listed
name of each retained event, a festival event contributes nothing to the
records or to the downstream processing stage, and an event with at most
6 performers contributes exactly its own performer list. -/
theorem C5_festival_filter (C : ScrapeCtx) (evs xs ys : List RawEvent)
    (e : RawEvent) (P : TimeParsers) (now : ℤ) :
    ((scrapeEvents C evs).1 = (evs.filter nonFestival).flatMap
      (fun ev => ev.performers.map (extractEventData C ev))) ∧
    ((scrapeEvents C evs).2.1 = evs.length) ∧
    ((scrapeEvents C evs).2.2 =
      (evs.filter (fun ev => !nonFestival ev)).length) ∧
    (festivalPerformerLimit < e.performers.length →
      (scrapeEvents C (xs ++ e :: ys)).1 = (scrapeEvents C (xs ++ ys)).1 ∧
      processPerformers P (scrapeEvents C (xs ++ e :: ys)).1 now =
        processPerformers P (scrapeEvents C (xs ++ ys)).1 now) ∧
    (e.performers.length ≤ festivalPerformerLimit →
      (scrapeEvents C (xs ++ e :: ys)).1 =
        (scrapeEvents C xs).1 ++ e.performers.map (extractEventData C e) ++
          (scrapeEvents C ys).1) := by
  have hspec := scrapeEvents_spec C
  refine ⟨by rw [hspec], by rw [hspec], by rw [hspec], ?_, ?_⟩
  · intro h
    have hnf : nonFestival e = false := by
      simp only [nonFestival, decide_eq_false_iff_not]; omega
    have heq : (scrapeEvents C (xs ++ e :: ys)).1 =
        (scrapeEvents C (xs ++ ys)).1 := by
      rw [hspec, hspec]
      simp [List.filter_append, List.filter_cons, hnf]
    exact ⟨heq, by rw [heq]⟩
  · intro h
    have hnf : nonFestival e = true := by
      simp only [nonFestival, decide_eq_true_eq]; omega
    rw [hspec, hspec, hspec]
    simp [List.filter_append, List.filter_cons, hnf, List.flatMap_append,
      List.append_assoc]

/-- Witness for C5 at a concrete input: a 7-performer event is excluded
entirely, leaving the records of the 1-performer event unchanged. -/
theorem C5_festival_filter_witness :
    festivalPerformerLimit < fxEvFest.performers.length ∧
    (scrapeEvents fxCtx ([] ++ fxEvFest :: [fxEvSmall])).1 =
      (scrapeEvents fxCtx ([] ++ [fxEvSmall])).1 :=
  ⟨by decide,
    ((C5_festival_filter fxCtx [] [] [fxEvSmall] fxEvFest fxPnone
      0).2.2.2.1 (by decide)).1⟩

theorem haversineRaw_symm (a b c d : ℚ) :
    haversineRaw a b c d = haversineRaw c d a b := by
  unfold haversineRaw
  rw [show (radiansQ a - radiansQ c) / 2 = -((radiansQ c - radiansQ a) / 2)
      by ring,
    show (radiansQ b - radiansQ d) / 2 = -((radiansQ d - radiansQ b) / 2)
      by ring,
    Real.sin_neg, Real.sin_neg]
  ring_nf

theorem haversineMiles_symm (a b c d : ℚ) :
    haversineMiles a b c d = haversineMiles c d a b := by
  unfold haversineMiles
  rw [haversineRaw_symm]

theorem calculate_distance_symm_gen {α : Type} (hv : ℚ → ℚ → ℚ → ℚ → α)
    (hsym : ∀ a b c d, hv a b c d = hv c d a b) (l1 o1 l2 o2 : PyVal) :
    calculate_distance hv l1 o1 l2 o2 = calculate_distance hv l2 o2 l1 o1 := by
  unfold calculate_distance
  by_cases t1 : pyTruthy l1 = true <;> by_cases t2 : pyTruthy o1 = true <;>
    by_cases t3 : pyTruthy l2 = true <;> by_cases t4 : pyTruthy o2 = true <;>
    simp only [t1, t2, t3, t4, Bool.and_true, Bool.and_false, Bool.true_and,
      Bool.false_and, if_true, if_false, Bool.not_eq_true] at * <;>
    simp_all
  rcases pyFloat l1 with _ | a <;> rcases pyFloat o1 with _ | b <;>
    rcases pyFloat l2 with _ | c <;> rcases pyFloat o2 with _ | d <;>
    simp [hsym]

/-- C6: the playlist loop of `create_playlist` approves exactly the
error-free results whose similarity is at or above `SKIP_THRESHOLD`
(0.70, inclusive), collecting their uris in distance order, and counts
each error-free result strictly below the threshold as skipped; a skipped
result is by construction not an error result, and the error tally of
`main` counts exactly the error-tagged results. -/
theorem C6_skip_threshold (results : List SAResult) :
    ((createPlaylistUris results).1 =
      ((playlistSorted results).filter approvedPred).map
        (fun r => r.uri.getD "")) ∧
    ((createPlaylistUris results).2.skipped =
      (results.filter skippedPred).length) ∧
    ((createPlaylistUris results).2.exact +
      (createPlaylistUris results).2.fuzzy =
      (results.filter approvedPred).length) ∧
    (errorCount results =
      (results.filter (fun r => r.error.isSome)).length) ∧
    (∀ r ∈ results, approvedPred r = true →
      r.uri.getD "" ∈ (createPlaylistUris results).1) ∧
    (∀ r : SAResult, skippedPred r = true → r.error.isSome = false) := by
  have hfold := approvedFold (playlistSorted results) [] ⟨0, 0, 0⟩
  have hperm : (playlistSorted results).Perm results :=
    List.perm_insertionSort _ _
  refine ⟨?_, ?_, ?_, rfl, ?_, ?_⟩
  · unfold createPlaylistUris
    rw [hfold]
    simp
  · unfold createPlaylistUris
    rw [hfold]
    have h2 := ((hperm.filter skippedPred).length_eq)
    simp
    omega
  · unfold createPlaylistUris
    rw [hfold]
    have h1 := filter_split_length approvedPred
      (fun r => r.exactMatch.getD false) (playlistSorted results)
    have h2 := ((hperm.filter approvedPred).length_eq)
    simp
    omega
  · intro r hr hap
    unfold createPlaylistUris
    rw [hfold]
    simp only [List.nil_append]
    exact List.mem_map.mpr
      ⟨r, List.mem_filter.mpr ⟨hperm.mem_iff.mpr hr, hap⟩, rfl⟩
  · intro r h
    unfold skippedPred at h
    rcases he : r.error.isSome with _ | _
    · rfl
    · rw [he] at h
      simp at h

/-- Witness for C6 at concrete inputs: a similarity-1 result contributes
its uri, a similarity-0.65 result is skipped. -/
theorem C6_skip_threshold_witness :
    approvedPred fxSAgood = true ∧ skippedPred fxSAlow = true ∧
    "uriX" ∈ (createPlaylistUris [fxSAgood, fxSAlow]).1 ∧
    (createPlaylistUris [fxSAgood, fxSAlow]).2.skipped = 1 :=
  ⟨by decide, by decide,
    (C6_skip_threshold [fxSAgood, fxSAlow]).2.2.2.2.1 fxSAgood (by decide)
      (by decide),
    by decide⟩

/-- C7 counterexample: with first latitude 0 — a present, numeric
coordinate — the truthiness guard of `calculate_distance` fires and the
infinite sentinel is returned, refuting the claim that the sentinel
appears exactly on missing or non-numeric coordinates. -/
theorem C7_counterexample :
    calculate_distance haversineMiles (.num 0) (.num 1) (.num 1) (.num 1) =
      Option.none ∧
    pyFloat (PyVal.num 0) = some 0 ∧ pyFloat (PyVal.num 1) = some 1 :=
  ⟨rfl, rfl, rfl⟩

/-- C7 (amended): `calculate_distance` is a total function (never
raises); it returns the infinite sentinel exactly when some coordinate is
Python-falsy — missing, empty, or numerically zero — or fails numeric
conversion; otherwise it returns the haversine great-circle distance in
miles rounded to two decimals; and it is symmetric in its coordinate
pairs. -/
theorem C7_distance_contract (l1 o1 l2 o2 : PyVal) :
    ((calculate_distance haversineMiles l1 o1 l2 o2).isSome = true ↔
      ((pyTruthy l1 && pyTruthy o1 && pyTruthy l2 && pyTruthy o2) = true ∧
        (pyFloat l1).isSome = true ∧ (pyFloat o1).isSome = true ∧
        (pyFloat l2).isSome = true ∧ (pyFloat o2).isSome = true)) ∧
    (∀ a b c d : ℚ, pyFloat l1 = some a → pyFloat o1 = some b →
      pyFloat l2 = some c → pyFloat o2 = some d →
      (pyTruthy l1 && pyTruthy o1 && pyTruthy l2 && pyTruthy o2) = true →
      calculate_distance haversineMiles l1 o1 l2 o2 =
        some (pyRound2 (haversineRaw a b c d))) ∧
    calculate_distance haversineMiles l1 o1 l2 o2 =
      calculate_distance haversineMiles l2 o2 l1 o1 := by
  refine ⟨?_, ?_, calculate_distance_symm_gen haversineMiles
    haversineMiles_symm l1 o1 l2 o2⟩
  · unfold calculate_distance
    by_cases ht : (pyTruthy l1 && pyTruthy o1 && pyTruthy l2 &&
        pyTruthy o2) = true
    · rw [if_pos ht]
      rcases h1 : pyFloat l1 with _ | a <;>
        rcases h2 : pyFloat o1 with _ | b <;>
        rcases h3 : pyFloat l2 with _ | c <;>
        rcases h4 : pyFloat o2 with _ | d <;>
        simp [ht]
    · rw [if_neg ht]
      simp [ht]
  · intro a b c d h1 h2 h3 h4 ht
    unfold calculate_distance
    rw [if_pos ht, h1, h2, h3, h4]
    rfl

/-- Witness for C7 at concrete numeric inputs: all four coordinates
truthy and convertible, so the rounded haversine value is returned. -/
theorem C7_distance_contract_witness :
    calculate_distance haversineMiles (.num 1) (.num 1) (.num 2) (.num 2) =
      some (pyRound2 (haversineRaw 1 1 2 2)) :=
  (C7_distance_contract (.num 1) (.num 1) (.num 2) (.num 2)).2.1 1 1 2 2
    rfl rfl rfl rfl (by decide)

/-- C8 counterexample: an exactly-matching artist with no playable track
yields a `search_artist` result carrying both the resolved catalog name
and an error reason, so resolved data and error reason are not mutually
exclusive as the claim states. -/
theorem C8_counterexample :
    (search_artist (some "t") fxEnvAbba "Abba").found = some "Abba" ∧
    (search_artist (some "t") fxEnvAbba "Abba").error =
      some "No tracks found" :=
  ⟨by decide, by decide⟩

/-- C8 (amended): every result of `search_artist` populates exactly one
of track uri and error reason, and an error-free result carries the full
resolved data; but a resolved catalog name may accompany an error reason
— exactly in the artist-found-but-no-tracks case. -/
theorem C8_result_shape (token : Option String) (env : SearchEnv)
    (name : String) :
    ((search_artist token env name).uri.isSome = true ↔
      (search_artist token env name).error = Option.none) ∧
    ((search_artist token env name).error = Option.none →
      (search_artist token env name).found.isSome = true ∧
      (search_artist token env name).exactMatch.isSome = true ∧
      (search_artist token env name).similarity.isSome = true ∧
      (search_artist token env name).hadRegion.isSome = true) ∧
    ((search_artist token env name).found.isSome = true ∧
      (search_artist token env name).error.isSome = true →
      (search_artist token env name).error = some "No tracks found") := by
  rcases search_artist_cases token env name with ⟨msg, h⟩ | ⟨cn, h⟩ |
    ⟨cn, uri, ex, sc, hr, h⟩ <;> rw [h] <;> simp

/-- Witness for C8 at a concrete input: the no-tracks case carries the
"No tracks found" error alongside the resolved name. -/
theorem C8_result_shape_witness :
    (search_artist (some "t") fxEnvAbba "Abba").error =
      some "No tracks found" :=
  (C8_result_shape (some "t") fxEnvAbba "Abba").2.2 ⟨by decide, by decide⟩

/-- C9: failures are isolated per item — a malformed structured-data
block contributes nothing while the rest of the page keeps processing,
`search_artist` always returns a result for its own performer, the batch
resolution is literally a map so no lookup affects a sibling, a missing
token tags every result with an error instead of aborting, and a search
exception is converted into an error-tagged result. -/
theorem C9_failure_isolation (C : ScrapeCtx)
    (bs1 bs2 : List (Except String (List RawEvent))) (msg : String)
    (token : Option String) (env : SearchEnv) (pd : List DedupRow)
    (names : List String) (name : String) :
    (scrapeBlocks C (bs1 ++ Except.error msg :: bs2) =
      scrapeBlocks C (bs1 ++ bs2)) ∧
    ((search_artist token env name).searched = name) ∧
    (resolveArtists token env pd names =
      names.map (fun n => attachVenueDist pd (search_artist token env n))) ∧
    ((resolveArtists token env pd names).length = names.length) ∧
    (token = Option.none → ∀ r ∈ resolveArtists token env pd names,
      r.error = some "No access token") ∧
    (∀ e t, env.searchResp (cleanArtistName name) = Except.error e →
      token = some t →
      (search_artist token env name).error =
        some ("Search error: " ++ e)) := by
  refine ⟨scrapeBlocks_skip_error C msg bs1 bs2, ?_, rfl,
    by simp [resolveArtists], ?_, ?_⟩
  · rcases search_artist_cases token env name with ⟨m, h⟩ | ⟨cn, h⟩ |
      ⟨cn, uri, ex, sc, hr, h⟩ <;> rw [h]
  · rintro rfl r hr
    rcases List.mem_map.mp hr with ⟨n, hn, hrn⟩
    rw [← hrn, attachVenueDist_error]
    rfl
  · intro e t hresp htok
    subst htok
    simp [search_artist, hresp]

/-- Witness for C9 at concrete inputs: with no token every resolved item
is error-tagged, and a raised search request becomes an error result. -/
theorem C9_failure_isolation_witness :
    (attachVenueDist [] (search_artist Option.none fxEnvErr "A")).error =
      some "No access token" ∧
    (search_artist (some "t") fxEnvErr "A").error =
      some ("Search error: " ++ "boom") :=
  ⟨(C9_failure_isolation fxCtx [] [] "bad" Option.none fxEnvErr [] ["A"]
      "A").2.2.2.2.1 rfl _ (by decide),
    (C9_failure_isolation fxCtx [] [] "bad" (some "t") fxEnvErr [] ["A"]
      "A").2.2.2.2.2 "boom" "t" rfl rfl⟩

/-- C10: every record with an empty venue is removed before the show-time
filter, the distance sort, the snapshot and the deduplication — no
snapshot row and no deduplicated row carries an empty venue. -/
theorem C10_empty_venue_removed (P : TimeParsers)
    (performers : List PerfRecord) (now : ℤ) :
    (∀ r ∈ snapshotRows P performers now, r.venue ≠ "") ∧
    (∀ row ∈ processPerformers P performers now, row.venue ≠ "") := by
  have hsnap : ∀ r ∈ snapshotRows P performers now, r.venue ≠ "" := by
    intro r hr
    have h1 : r ∈ timeFiltered P now (venueFiltered performers) :=
      (sortedByDist_perm _).mem_iff.mp hr
    have h2 : r ∈ venueFiltered performers := (List.mem_filter.mp h1).1
    have h3 := (List.mem_filter.mp h2).2
    simpa using h3
  refine ⟨hsnap, ?_⟩
  intro row hrow
  unfold processPerformers at hrow
  by_cases h : performers.isEmpty
  · rw [if_pos h] at hrow
    cases hrow
  · rw [if_neg h] at hrow
    unfold dedupStage at hrow
    rcases dedupRows_mem_occ _ row hrow with ⟨occ, hmem, _, hv, _, _⟩
    rw [hv]
    exact hsnap occ hmem

/-- Witness for C10 at a concrete input: the retained rows all carry
non-empty venues. -/
theorem C10_empty_venue_removed_witness :
    fxRecB ∈ snapshotRows fxPnone [fxRecB, fxRecA] 0 ∧ fxRecB.venue ≠ "" ∧
    (⟨"B", "V1", some 1⟩ : DedupRow) ∈
      processPerformers fxPnone [fxRecB, fxRecA] 0 ∧
    (⟨"B", "V1", some 1⟩ : DedupRow).venue ≠ "" :=
  ⟨by decide,
    (C10_empty_venue_removed fxPnone [fxRecB, fxRecA] 0).1 fxRecB
      (by decide),
    by decide,
    (C10_empty_venue_removed fxPnone [fxRecB, fxRecA] 0).2
      ⟨"B", "V1", some 1⟩ (by decide)⟩
